import Mathlib

/-!
Shallow embedding of the X11 event-loop engine from
`src/platform_impl/linux/x11/mod.rs` (winit's X11 backend).

Machine model choices:
* `Instant` and `Duration` are modelled as `Nat` (monotonic clock readings;
  Rust's `Instant` subtraction is guarded by a comparison in the source, which
  the embedding reproduces literally, so truncated `Nat` subtraction is exact).
* `WindowId`, activation serials and activation tokens are modelled as `Nat`.
* The application callback is modelled as a pure control-flow transformer
  `Event T → ControlFlow → ControlFlow`; the list of callback invocations
  (the delivery trace) is accumulated by the driver itself.
* The X connection is modelled as the list of application events that
  `drain_events` would translate out of the pending native protocol events.
-/

namespace Winit

/-- Modelled from the spec: the application's four-state control-flow contract
(`Poll`, `Wait`, `WaitUntil(deadline)`, `ExitWithCode(code)`); the enum itself
lives outside `src/` (crate::event_loop), its shape is fixed by §3 of the spec
and by every `match` over it in `run_return`. -/
inductive ControlFlow where
  | Poll : ControlFlow
  | Wait : ControlFlow
  | WaitUntil : Nat → ControlFlow
  | ExitWithCode : Int → ControlFlow
deriving DecidableEq, Repr

/-- Modelled from the spec: the start cause tagging why an iteration began
(`Init`, `Poll`, `WaitCancelled`, `ResumeTimeReached`); the enum lives outside
`src/` (crate::event), its shape is fixed by §3 of the spec and by the
assignments in `single_iteration` / `run_return`. -/
inductive StartCause where
  | Init : StartCause
  | Poll : StartCause
  | WaitCancelled : Nat → Option Nat → StartCause
  | ResumeTimeReached : Nat → Nat → StartCause
deriving DecidableEq, Repr

/-- Modelled from the spec: the events delivered to the application callback.
The enum lives outside `src/` (crate::event); the constructors used here are
exactly the ones `run_return`, `single_iteration` and `drain_events` emit.
`Native tag` stands for any translated native application event other than
`RedrawRequested` (whose interception is the one special case in
`drain_events`); `ActivationTokenDone` carries (window id, serial, token). -/
inductive Event (T : Type) where
  | NewEvents : StartCause → Event T
  | Resumed : Event T
  | Native : Nat → Event T
  | ActivationTokenDone : Nat → Nat → Nat → Event T
  | UserEvent : T → Event T
  | MainEventsCleared : Event T
  | RedrawRequested : Nat → Event T
  | RedrawEventsCleared : Event T
  | LoopDestroyed : Event T
deriving DecidableEq, Repr

/-- The three pending queues of `EventLoopState` (mod.rs lines 107-116). -/
structure EventLoopState (T : Type) where
  user_events : List T
  redraw_events : List Nat
  activation_tokens : List (Nat × Nat)
deriving DecidableEq, Repr

/-- The loop-owned state plus the redraw channel's in-flight buffer
(`redraw_sender`/`redraw_dispatcher`): window ids sent with
`redraw_sender.send` sit in the channel until `try_recv` (mod.rs line 474)
or a calloop dispatch moves them into `redraw_events`. -/
structure IterState (T : Type) where
  st : EventLoopState T
  redraw_channel : List Nat
deriving DecidableEq, Repr

/-- Result of resolving one activation token entry (mod.rs lines 425-449):
`with_window` returns `None` when the window is gone, and
`generate_activation_token` may fail (`Some(Err(_))`, which is only logged). -/
inductive ResolveOutcome where
  | missing : ResolveOutcome
  | failed : ResolveOutcome
  | ok : Nat → ResolveOutcome
deriving DecidableEq, Repr

/-- One translated native application event as produced by
`event_processor.process_event` inside `drain_events` (mod.rs lines 625-641):
either a `RedrawRequested(wid)` (intercepted) or some other event. -/
inductive NativeItem where
  | redraw : Nat → NativeItem
  | other : Nat → NativeItem
deriving DecidableEq, Repr

/-- Modelled from the spec: `sticky_exit_callback`
(crate::platform_impl::platform, outside `src/`). It always invokes the
callback, but once the control flow is `ExitWithCode` the callback receives a
dummy reference, so `ExitWithCode` is latched ("terminal" per §3 of the
spec: once observed, the loop must stop). -/
def sticky_exit_callback {T : Type} (cb : Event T → ControlFlow → ControlFlow)
    (ev : Event T) (cf : ControlFlow) : ControlFlow :=
  match cf with
  | .ExitWithCode c => .ExitWithCode c
  | _ => cb ev cf

/-- One callback invocation: record the event in the delivery trace and update
the control flow through `sticky_exit_callback`. -/
def deliver {T : Type} (cb : Event T → ControlFlow → ControlFlow) (ev : Event T)
    (acc : List (Event T) × ControlFlow) : List (Event T) × ControlFlow :=
  (acc.1 ++ [ev], sticky_exit_callback cb ev acc.2)

/-- A "pop until empty, deliver the translation of each entry" loop, the shape
of the activation-token, user-event and redraw delivery loops in
`single_iteration`; `f x = none` means the entry is skipped. -/
def drainWith {T α : Type} (cb : Event T → ControlFlow → ControlFlow)
    (f : α → Option (Event T)) : List α → List (Event T) × ControlFlow →
    List (Event T) × ControlFlow
  | [], acc => acc
  | x :: xs, acc =>
    match f x with
    | some e => drainWith cb f xs (deliver cb e acc)
    | none => drainWith cb f xs acc

/-- `drain_events` (mod.rs lines 617-642): every pending native protocol event
is translated and delivered, except that a translated `RedrawRequested(wid)`
is not delivered but sent on the redraw channel (`wt.redraw_sender.send`). -/
def drain_events {T : Type} (cb : Event T → ControlFlow → ControlFlow) :
    List NativeItem → (List (Event T) × ControlFlow) × List Nat →
    (List (Event T) × ControlFlow) × List Nat
  | [], acc => acc
  | .redraw w :: xs, acc => drain_events cb xs (acc.1, acc.2 ++ [w])
  | .other t :: xs, acc => drain_events cb xs (deliver cb (.Native t) acc.1, acc.2)

/-- The translation step of the activation-token loop (mod.rs lines 425-450):
deliver `ActivationTokenDone` on success, log-and-skip on failure, skip
silently when the window is gone. -/
def tokenEvent {T : Type} (resolve : Nat → Nat → ResolveOutcome) (t : Nat × Nat) :
    Option (Event T) :=
  match resolve t.1 t.2 with
  | .ok tok => some (.ActivationTokenDone t.1 t.2 tok)
  | .failed => none
  | .missing => none

/-- The non-intercepted application events produced by one drained native
item (used to state what `drain_events` delivers). -/
def natEv {T : Type} : NativeItem → Option (Event T)
  | .other t => some (.Native t)
  | .redraw _ => none

/-- The window id a drained native item contributes to the redraw channel. -/
def redrawOf : NativeItem → Option Nat
  | .redraw w => some w
  | .other _ => none

/-- `IterationResult` (mod.rs lines 389-393). -/
structure IterationResult where
  deadline : Option Nat
  timeout : Option Nat
  wait_start : Nat
deriving DecidableEq, Repr

/-- The control-flow policy match at the end of `single_iteration`
(mod.rs lines 508-544): from the control-flow mode and `start = Instant::now()`
compute the next start cause, the wait deadline and the wait timeout.
`ExitWithCode` short-circuits and leaves the cause untouched. -/
def compute_wait (cf : ControlFlow) (start : Nat) (cause : StartCause) :
    StartCause × IterationResult :=
  match cf with
  | .ExitWithCode _ => (cause, ⟨none, none, start⟩)
  | .Poll => (.Poll, ⟨none, some 0, start⟩)
  | .Wait => (.WaitCancelled start none, ⟨none, none, start⟩)
  | .WaitUntil d =>
    (.ResumeTimeReached start d,
      ⟨some d, some (if start < d then d - start else 0), start⟩)

/-- The delivery phase of `single_iteration` (mod.rs lines 403-506), strict
order: `NewEvents(cause)`; `Resumed` when `cause == Init`; drained native
events; activation tokens (FIFO); user events (FIFO); `MainEventsCleared`;
the redraw channel is drained into `redraw_events` and the combined queue is
collapsed into a set (`HashSet`, iteration order unspecified — represented by
`List.dedup`) delivering one `RedrawRequested` per unique window id; finally
`RedrawEventsCleared`. -/
def iteration_core {T : Type} (cb : Event T → ControlFlow → ControlFlow)
    (resolve : Nat → Nat → ResolveOutcome) (native : List NativeItem)
    (cause : StartCause) (s : IterState T) (cf0 : ControlFlow) :
    List (Event T) × ControlFlow :=
  let acc0 := deliver cb (.NewEvents cause) ([], cf0)
  let acc1 := if cause = .Init then deliver cb .Resumed acc0 else acc0
  let accRc := drain_events cb native (acc1, s.redraw_channel)
  let acc3 := drainWith cb (tokenEvent resolve) s.st.activation_tokens accRc.1
  let acc4 := drainWith cb (fun u => some (.UserEvent u)) s.st.user_events acc3
  let acc5 := deliver cb .MainEventsCleared acc4
  let acc6 := drainWith cb (fun w => some (.RedrawRequested w))
    (s.st.redraw_events ++ accRc.2).dedup acc5
  deliver cb .RedrawEventsCleared acc6

/-- The output of one `single_iteration` call: the callback invocations in
order, the control flow and cause after the iteration, the
`IterationResult`, and the (fully drained) loop state. -/
structure IterOutput (T : Type) where
  trace : List (Event T)
  cf : ControlFlow
  cause : StartCause
  res : IterationResult
  state : IterState T
deriving DecidableEq, Repr

/-- `single_iteration` (mod.rs lines 394-551): run the delivery phase, then
the control-flow policy with `now = Instant::now()`. All queues and the
redraw channel are empty afterwards (every drain loop pops until empty). -/
def single_iteration {T : Type} (cb : Event T → ControlFlow → ControlFlow)
    (resolve : Nat → Nat → ResolveOutcome) (native : List NativeItem)
    (now : Nat) (cf0 : ControlFlow) (cause : StartCause) (s : IterState T) :
    IterOutput T :=
  let acc := iteration_core cb resolve native cause s cf0
  let cw := compute_wait acc.2 now cause
  { trace := acc.1, cf := acc.2, cause := cw.1, res := cw.2,
    state := ⟨⟨[], [], []⟩, []⟩ }

/-- The pending-work readiness check of `run_return` (mod.rs lines 563-565):
`event_processor.poll() || !user_events.is_empty() || !redraw_events.is_empty()`.
Activation tokens are not consulted. -/
def has_pending {T : Type} (nativePending : Bool) (st : EventLoopState T) : Bool :=
  nativePending || !st.user_events.isEmpty || !st.redraw_events.isEmpty

/-- The wait-cancelled cause update between iterations (mod.rs lines 587-596):
if `Instant::now() < deadline`, the next cause becomes
`WaitCancelled{start: wait_start, requested_resume: deadline}`; otherwise the
cause computed at the end of the previous iteration stands. -/
def next_cause (ir : IterationResult) (now : Nat) (cause : StartCause) : StartCause :=
  match ir.deadline with
  | some d => if now < d then .WaitCancelled ir.wait_start (some d) else cause
  | none => cause

/-- Outcome of one `event_loop.dispatch(timeout, state)` call (the calloop
multiplexer): either an I/O error with an optional raw OS error code, or the
channel messages (user events, redraw window ids, activation tokens) the
dispatch callbacks push onto the corresponding queues. -/
inductive DispatchOutcome (T : Type) where
  | ok : List T → List Nat → List (Nat × Nat) → DispatchOutcome T
  | err : Option Int → DispatchOutcome T
deriving DecidableEq, Repr

/-- Environment of one pass through the `run_return` outer loop: the result
`event_processor.poll()` would report, what `dispatch` would produce, the
`Instant::now()` of the wait-cancelled check, and the native events and
`Instant::now()` of the following `single_iteration`. -/
structure Round (T : Type) where
  nativePending : Bool
  dispatch : DispatchOutcome T
  now_check : Nat
  native : List NativeItem
  iter_now : Nat
deriving DecidableEq, Repr

/-- The value `run_return` produces: the exit code and the full delivery
trace (callback invocations in order, `LoopDestroyed` included). -/
structure RunResult (T : Type) where
  code : Int
  trace : List (Event T)
deriving DecidableEq, Repr

/-- The calloop dispatch callbacks (mod.rs lines 261-296): each channel
message is pushed onto the back of its queue, preserving channel order. -/
def apply_dispatch {T : Type} (s : IterState T) (us : List T) (rs : List Nat)
    (ts : List (Nat × Nat)) : IterState T :=
  ⟨⟨s.st.user_events ++ us, s.st.redraw_events ++ rs,
    s.st.activation_tokens ++ ts⟩, s.redraw_channel⟩

/-- The `if let ControlFlow::ExitWithCode(code) = control_flow` test at the
top of the `run_return` outer loop (mod.rs line 560). -/
def exit_code? : ControlFlow → Option Int
  | .ExitWithCode c => some c
  | _ => none

/-- The outer `loop` of `run_return` (mod.rs lines 559-606), driven by the
list of per-pass environments: break with the code once `ExitWithCode` is
observed (appending the final `LoopDestroyed` delivery, line 601); otherwise
check `has_pending`, dispatch when idle (an I/O error breaks with
`raw_os_error().unwrap_or(1)`), re-check from the top after a `Wait` dispatch
(the spurious-wakeup `continue`, line 583), apply the wait-cancelled cause
update and run the next `single_iteration`. `none` means the environment list
was exhausted before the loop returned. -/
def run_return_aux {T : Type} (cb : Event T → ControlFlow → ControlFlow)
    (resolve : Nat → Nat → ResolveOutcome) :
    List (Round T) → ControlFlow → StartCause → IterationResult →
    IterState T → List (Event T) → Option (RunResult T)
  | [], cf, _, _, _, tr =>
    match exit_code? cf with
    | some code => some ⟨code, tr ++ [.LoopDestroyed]⟩
    | none => none
  | r :: rest, cf, cause, ir, s, tr =>
    match exit_code? cf with
    | some code => some ⟨code, tr ++ [.LoopDestroyed]⟩
    | none =>
      if has_pending r.nativePending s.st then
        let out := single_iteration cb resolve r.native r.iter_now cf
          (next_cause ir r.now_check cause) s
        run_return_aux cb resolve rest out.cf out.cause out.res out.state
          (tr ++ out.trace)
      else
        match r.dispatch with
        | .err c => some ⟨c.getD 1, tr ++ [.LoopDestroyed]⟩
        | .ok us rs ts =>
          let s1 := apply_dispatch s us rs ts
          if cf = .Wait then
            run_return_aux cb resolve rest cf cause ir s1 tr
          else
            let out := single_iteration cb resolve r.native r.iter_now cf
              (next_cause ir r.now_check cause) s1
            run_return_aux cb resolve rest out.cf out.cause out.res out.state
              (tr ++ out.trace)

/-- `run_return` (mod.rs lines 385-607): `control_flow` starts at
`ControlFlow::default()` (which is `Poll`), `cause` starts at `Init`, the
queues start empty (mod.rs lines 367-371), the initial iteration runs
unconditionally (line 557), then the outer loop takes over. -/
def run_return {T : Type} (cb : Event T → ControlFlow → ControlFlow)
    (resolve : Nat → Nat → ResolveOutcome) (rounds : List (Round T))
    (native0 : List NativeItem) (now0 : Nat) : Option (RunResult T) :=
  let out := single_iteration cb resolve native0 now0 .Poll .Init ⟨⟨[], [], []⟩, []⟩
  run_return_aux cb resolve rounds out.cf out.cause out.res out.state out.trace

/-- Recogniser for `UserEvent` deliveries (used to state the user-event
ordering property). -/
def isUserEv {T : Type} : Event T → Bool
  | .UserEvent _ => true
  | _ => false

/-- A trivial application callback that never changes the control flow
(used to instantiate theorems at concrete inputs). -/
def cbId {T : Type} : Event T → ControlFlow → ControlFlow := fun _ cf => cf

/-- An application callback that immediately requests exit with code 0
(used to instantiate theorems at concrete inputs). -/
def cbExit : Event Nat → ControlFlow → ControlFlow := fun _ _ => .ExitWithCode 0

/-- A window registry in which every window lookup fails
(used to instantiate theorems at concrete inputs). -/
def resolveNone : Nat → Nat → ResolveOutcome := fun _ _ => .missing

/-! ### Device registry (mod.rs lines 955-1051) -/

/-- `XIMasterPointer` from the XInput2 headers (`info._use` value). -/
def XIMasterPointer : Int := 1

/-- `XIMasterKeyboard` from the XInput2 headers. -/
def XIMasterKeyboard : Int := 2

/-- `XISlavePointer` from the XInput2 headers. -/
def XISlavePointer : Int := 3

/-- `XISlaveKeyboard` from the XInput2 headers. -/
def XISlaveKeyboard : Int := 4

/-- `XIFloatingSlave` from the XInput2 headers. -/
def XIFloatingSlave : Int := 5

/-- `ScrollOrientation` (mod.rs lines 971-975). -/
inductive ScrollOrientation where
  | Vertical : ScrollOrientation
  | Horizontal : ScrollOrientation
deriving DecidableEq, Repr

/-- `ScrollAxis` (mod.rs lines 964-969). The `f64` fields `increment` and
`position` are modelled as `Int`; `Device::new` only copies them, never
computes with them. -/
structure ScrollAxis where
  increment : Int
  orientation : ScrollOrientation
  position : Int
deriving DecidableEq, Repr

/-- One entry of `XIDeviceInfo.classes`: a scroll class
(`XIScrollClassInfo`: axis number, scroll type, increment — the scroll type
is carried already decoded, since the source's `match info.scroll_type`
declares every value other than horizontal/vertical unreachable), a valuator
class (`XIValuatorClassInfo`: axis number, current value), or any other
class kind (ignored by `Device::new`). -/
inductive XIClass where
  | scroll : Int → ScrollOrientation → Int → XIClass
  | valuator : Int → Int → XIClass
  | otherClass : XIClass
deriving DecidableEq, Repr

/-- The fields of `ffi::XIDeviceInfo` that `Device::new` reads: `name`,
`_use` (role constant), `attachment`, and the class list. -/
structure XIDeviceInfo where
  name : String
  _use : Int
  attachment : Int
  classes : List XIClass
deriving DecidableEq, Repr

/-- `Device` (mod.rs lines 955-962). -/
structure Device where
  _name : String
  scroll_axes : List (Int × ScrollAxis)
  attachment : Int
deriving DecidableEq, Repr

/-- `Device::physical_device` (mod.rs lines 1035-1040). -/
def physical_device (info : XIDeviceInfo) : Bool :=
  info._use = XISlaveKeyboard || info._use = XISlavePointer
    || info._use = XIFloatingSlave

/-- The `find`-and-update of `Device::reset_scroll_position` (mod.rs lines
1023-1029): set the position of the first axis whose number matches. -/
def set_axis_position (num value : Int) :
    List (Int × ScrollAxis) → List (Int × ScrollAxis)
  | [] => []
  | (a, ax) :: rest =>
    if a = num then (a, { ax with position := value }) :: rest
    else (a, ax) :: set_axis_position num value rest

/-- `Device::reset_scroll_position` (mod.rs lines 1015-1033): only on a
physical device, walk the valuator classes and refresh the stored position
of the matching scroll axis. -/
def Device.reset_scroll_position (d : Device) (info : XIDeviceInfo) : Device :=
  if physical_device info then
    { d with
      scroll_axes := info.classes.foldl (fun axes c =>
        match c with
        | .valuator num value => set_axis_position num value axes
        | _ => axes) d.scroll_axes }
  else d

/-- `Device::new` (mod.rs lines 977-1013): collect the scroll classes into
`scroll_axes` (position initialised to zero) only when the device is
physical, then reset the scroll positions from the valuator classes. -/
def Device.new (info : XIDeviceInfo) : Device :=
  let scroll_axes : List (Int × ScrollAxis) :=
    if physical_device info then
      info.classes.filterMap (fun c =>
        match c with
        | .scroll number orientation increment =>
          some (number, ⟨increment, orientation, 0⟩)
        | _ => none)
    else []
  Device.reset_scroll_position ⟨info.name, scroll_axes, info.attachment⟩ info

/-! ### Helper lemmas about the delivery combinators -/

theorem deliver_fst {T : Type} (cb : Event T → ControlFlow → ControlFlow)
    (ev : Event T) (acc : List (Event T) × ControlFlow) :
    (deliver cb ev acc).1 = acc.1 ++ [ev] := rfl

theorem sticky_exit_callback_exit {T : Type}
    (cb : Event T → ControlFlow → ControlFlow) (ev : Event T) (c : Int) :
    sticky_exit_callback cb ev (.ExitWithCode c) = .ExitWithCode c := rfl

theorem deliver_snd_exit {T : Type} (cb : Event T → ControlFlow → ControlFlow)
    (ev : Event T) (acc : List (Event T) × ControlFlow) (c : Int)
    (h : acc.2 = .ExitWithCode c) : (deliver cb ev acc).2 = .ExitWithCode c := by
  simp [deliver, h, sticky_exit_callback]

theorem filterMap_some_eq_map {α β : Type} (g : α → β) (l : List α) :
    l.filterMap (fun a => some (g a)) = l.map g := by
  induction l with
  | nil => rfl
  | cons a l ih => simp [List.filterMap_cons, ih]

theorem drainWith_fst {T α : Type} (cb : Event T → ControlFlow → ControlFlow)
    (f : α → Option (Event T)) (xs : List α) :
    ∀ acc : List (Event T) × ControlFlow,
      (drainWith cb f xs acc).1 = acc.1 ++ xs.filterMap f := by
  induction xs with
  | nil => intro acc; simp [drainWith]
  | cons x xs ih =>
    intro acc
    cases hfx : f x with
    | none => simp [drainWith, hfx, ih]
    | some e => simp [drainWith, hfx, ih, deliver]

theorem drainWith_snd_exit {T α : Type} (cb : Event T → ControlFlow → ControlFlow)
    (f : α → Option (Event T)) (xs : List α) :
    ∀ (acc : List (Event T) × ControlFlow) (c : Int), acc.2 = .ExitWithCode c →
      (drainWith cb f xs acc).2 = .ExitWithCode c := by
  induction xs with
  | nil => intro acc c h; simpa [drainWith] using h
  | cons x xs ih =>
    intro acc c h
    cases hfx : f x with
    | none => simp only [drainWith, hfx]; exact ih acc c h
    | some e =>
      simp only [drainWith, hfx]
      exact ih (deliver cb e acc) c (deliver_snd_exit cb e acc c h)

theorem drain_events_fst {T : Type} (cb : Event T → ControlFlow → ControlFlow)
    (xs : List NativeItem) :
    ∀ acc : (List (Event T) × ControlFlow) × List Nat,
      (drain_events cb xs acc).1.1 = acc.1.1 ++ xs.filterMap natEv := by
  induction xs with
  | nil => intro acc; simp [drain_events, natEv]
  | cons x xs ih =>
    intro acc
    cases x with
    | redraw w => simp [drain_events, natEv, ih]
    | other t => simp [drain_events, natEv, ih, deliver]

theorem drain_events_snd {T : Type} (cb : Event T → ControlFlow → ControlFlow)
    (xs : List NativeItem) :
    ∀ acc : (List (Event T) × ControlFlow) × List Nat,
      (drain_events cb xs acc).2 = acc.2 ++ xs.filterMap redrawOf := by
  induction xs with
  | nil => intro acc; simp [drain_events, redrawOf]
  | cons x xs ih =>
    intro acc
    cases x with
    | redraw w => simp [drain_events, redrawOf, ih]
    | other t => simp [drain_events, redrawOf, ih]

theorem drain_events_fst_snd_exit {T : Type}
    (cb : Event T → ControlFlow → ControlFlow) (xs : List NativeItem) :
    ∀ (acc : (List (Event T) × ControlFlow) × List Nat) (c : Int),
      acc.1.2 = .ExitWithCode c → (drain_events cb xs acc).1.2 = .ExitWithCode c := by
  induction xs with
  | nil => intro acc c h; simpa [drain_events] using h
  | cons x xs ih =>
    intro acc c h
    cases x with
    | redraw w => simp only [drain_events]; exact ih _ c h
    | other t =>
      simp only [drain_events]
      exact ih _ c (deliver_snd_exit cb _ acc.1 c h)

/-- The delivery trace of one iteration, in closed form: the fixed order of
mod.rs lines 403-506. -/
theorem iteration_core_trace {T : Type} (cb : Event T → ControlFlow → ControlFlow)
    (resolve : Nat → Nat → ResolveOutcome) (native : List NativeItem)
    (cause : StartCause) (s : IterState T) (cf0 : ControlFlow) :
    (iteration_core cb resolve native cause s cf0).1 =
      Event.NewEvents cause :: ((if cause = .Init then [Event.Resumed] else [])
        ++ native.filterMap natEv
        ++ s.st.activation_tokens.filterMap (tokenEvent resolve)
        ++ s.st.user_events.map Event.UserEvent
        ++ [Event.MainEventsCleared]
        ++ ((s.st.redraw_events
              ++ (s.redraw_channel ++ native.filterMap redrawOf)).dedup.map
            Event.RedrawRequested)
        ++ [Event.RedrawEventsCleared]) := by
  by_cases hc : cause = .Init <;>
    simp [iteration_core, hc, deliver, drainWith_fst, drain_events_fst,
      drain_events_snd, filterMap_some_eq_map]

/-- Once the control flow entering an iteration is `ExitWithCode c`, it is
still `ExitWithCode c` after every delivery of the iteration
(`sticky_exit_callback` gives the callback a dummy reference). -/
theorem iteration_core_exit {T : Type} (cb : Event T → ControlFlow → ControlFlow)
    (resolve : Nat → Nat → ResolveOutcome) (native : List NativeItem)
    (cause : StartCause) (s : IterState T) (c : Int) :
    (iteration_core cb resolve native cause s (.ExitWithCode c)).2 =
      .ExitWithCode c := by
  have h0 : (deliver cb (Event.NewEvents cause)
      (([] : List (Event T)), ControlFlow.ExitWithCode c)).2 = .ExitWithCode c :=
    deliver_snd_exit _ _ _ _ rfl
  have h1 : (if cause = .Init then
      deliver cb .Resumed (deliver cb (Event.NewEvents cause) ([], .ExitWithCode c))
      else deliver cb (Event.NewEvents cause) ([], .ExitWithCode c)).2
      = .ExitWithCode c := by
    by_cases hc : cause = .Init
    · simp only [hc, if_pos]; exact deliver_snd_exit _ _ _ _ h0
    · simp only [hc, if_neg, ite_false]; exact h0
  simp only [iteration_core]
  exact deliver_snd_exit _ _ _ _
    (drainWith_snd_exit _ _ _ _ _
      (deliver_snd_exit _ _ _ _
        (drainWith_snd_exit _ _ _ _ _
          (drainWith_snd_exit _ _ _ _ _
            (drain_events_fst_snd_exit _ _ _ _ h1)))))

theorem single_iteration_trace {T : Type} (cb : Event T → ControlFlow → ControlFlow)
    (resolve : Nat → Nat → ResolveOutcome) (native : List NativeItem) (now : Nat)
    (cf0 : ControlFlow) (cause : StartCause) (s : IterState T) :
    (single_iteration cb resolve native now cf0 cause s).trace =
      (iteration_core cb resolve native cause s cf0).1 := rfl

theorem single_iteration_cf {T : Type} (cb : Event T → ControlFlow → ControlFlow)
    (resolve : Nat → Nat → ResolveOutcome) (native : List NativeItem) (now : Nat)
    (cf0 : ControlFlow) (cause : StartCause) (s : IterState T) :
    (single_iteration cb resolve native now cf0 cause s).cf =
      (iteration_core cb resolve native cause s cf0).2 := rfl

theorem single_iteration_cause {T : Type} (cb : Event T → ControlFlow → ControlFlow)
    (resolve : Nat → Nat → ResolveOutcome) (native : List NativeItem) (now : Nat)
    (cf0 : ControlFlow) (cause : StartCause) (s : IterState T) :
    (single_iteration cb resolve native now cf0 cause s).cause =
      (compute_wait (iteration_core cb resolve native cause s cf0).2 now cause).1 := rfl

theorem single_iteration_res {T : Type} (cb : Event T → ControlFlow → ControlFlow)
    (resolve : Nat → Nat → ResolveOutcome) (native : List NativeItem) (now : Nat)
    (cf0 : ControlFlow) (cause : StartCause) (s : IterState T) :
    (single_iteration cb resolve native now cf0 cause s).res =
      (compute_wait (iteration_core cb resolve native cause s cf0).2 now cause).2 := rfl

theorem single_iteration_state {T : Type} (cb : Event T → ControlFlow → ControlFlow)
    (resolve : Nat → Nat → ResolveOutcome) (native : List NativeItem) (now : Nat)
    (cf0 : ControlFlow) (cause : StartCause) (s : IterState T) :
    (single_iteration cb resolve native now cf0 cause s).state = ⟨⟨[], [], []⟩, []⟩ := rfl

/-! ### Shape of the individual trace segments -/

theorem mem_filterMap_natEv {T : Type} (native : List NativeItem) (e : Event T)
    (h : e ∈ native.filterMap natEv) : ∃ t, e = .Native t := by
  obtain ⟨i, _, heq⟩ := List.mem_filterMap.mp h
  cases i with
  | redraw w => simp [natEv] at heq
  | other t => simp [natEv] at heq; exact ⟨t, heq.symm⟩

theorem mem_filterMap_tokenEvent {T : Type} (resolve : Nat → Nat → ResolveOutcome)
    (toks : List (Nat × Nat)) (e : Event T)
    (h : e ∈ toks.filterMap (tokenEvent resolve)) :
    ∃ a b c, e = .ActivationTokenDone a b c := by
  obtain ⟨t, _, heq⟩ := List.mem_filterMap.mp h
  unfold tokenEvent at heq
  cases hrt : resolve t.1 t.2 <;> rw [hrt] at heq <;> simp at heq
  case ok tok => exact ⟨t.1, t.2, tok, heq.symm⟩

theorem count_natEv_zero {T : Type} [DecidableEq T] (native : List NativeItem)
    (e : Event T) (h : ∀ t, e ≠ .Native t) :
    (native.filterMap natEv).count e = 0 := by
  rw [List.count_eq_zero]
  intro hmem
  obtain ⟨t, ht⟩ := mem_filterMap_natEv native e hmem
  exact h t ht

theorem count_tokenEvent_zero {T : Type} [DecidableEq T]
    (resolve : Nat → Nat → ResolveOutcome) (toks : List (Nat × Nat)) (e : Event T)
    (h : ∀ a b c, e ≠ .ActivationTokenDone a b c) :
    (toks.filterMap (tokenEvent resolve)).count e = 0 := by
  rw [List.count_eq_zero]
  intro hmem
  obtain ⟨a, b, c, habc⟩ := mem_filterMap_tokenEvent resolve toks e hmem
  exact h a b c habc

theorem count_userMap_zero {T : Type} [DecidableEq T] (us : List T) (e : Event T)
    (h : ∀ u, e ≠ .UserEvent u) : (us.map Event.UserEvent).count e = 0 := by
  rw [List.count_eq_zero]
  intro hmem
  obtain ⟨u, _, hu⟩ := List.mem_map.mp hmem
  exact h u hu.symm

theorem count_redrawMap_zero {T : Type} [DecidableEq T] (ws : List Nat) (e : Event T)
    (h : ∀ w, e ≠ .RedrawRequested w) :
    (ws.map (Event.RedrawRequested : Nat → Event T)).count e = 0 := by
  rw [List.count_eq_zero]
  intro hmem
  obtain ⟨w, _, hw⟩ := List.mem_map.mp hmem
  exact h w hw.symm

theorem count_redraw_map_dedup {T : Type} [DecidableEq T] (p : List Nat) (w : Nat) :
    ((p.dedup.map (Event.RedrawRequested : Nat → Event T)).count
      (.RedrawRequested w)) = if w ∈ p then 1 else 0 := by
  have hinj : Function.Injective (Event.RedrawRequested : Nat → Event T) := by
    intro a b h; injection h
  rw [List.count_map_of_injective _ _ hinj]
  by_cases hw : w ∈ p
  · rw [if_pos hw]
    exact List.count_eq_one_of_mem (List.nodup_dedup p) (List.mem_dedup.mpr hw)
  · rw [if_neg hw]
    exact List.count_eq_zero_of_not_mem fun hmem => hw (List.mem_dedup.mp hmem)

/-! ### Per-iteration counting and filtering lemmas -/

theorem single_iteration_count_redraw {T : Type} [DecidableEq T]
    (cb : Event T → ControlFlow → ControlFlow) (resolve : Nat → Nat → ResolveOutcome)
    (native : List NativeItem) (now : Nat) (cf0 : ControlFlow) (cause : StartCause)
    (s : IterState T) (w : Nat) :
    ((single_iteration cb resolve native now cf0 cause s).trace).count
        (.RedrawRequested w) =
      if w ∈ s.st.redraw_events ++ (s.redraw_channel ++ native.filterMap redrawOf)
      then 1 else 0 := by
  rw [single_iteration_trace, iteration_core_trace]
  have h1 : (native.filterMap natEv).count (Event.RedrawRequested w : Event T) = 0 :=
    count_natEv_zero _ _ fun t h => Event.noConfusion h
  have h2 : (s.st.activation_tokens.filterMap (tokenEvent resolve)).count
      (Event.RedrawRequested w : Event T) = 0 :=
    count_tokenEvent_zero _ _ _ fun a b c h => Event.noConfusion h
  have h3 : (s.st.user_events.map Event.UserEvent).count
      (Event.RedrawRequested w : Event T) = 0 :=
    count_userMap_zero _ _ fun u h => Event.noConfusion h
  have h4 := count_redraw_map_dedup
    (s.st.redraw_events ++ (s.redraw_channel ++ native.filterMap redrawOf)) w (T := T)
  by_cases hc : cause = .Init <;>
    simp [hc, List.count_append, List.count_cons, h1, h2, h3, h4]

theorem single_iteration_count_resumed {T : Type} [DecidableEq T]
    (cb : Event T → ControlFlow → ControlFlow) (resolve : Nat → Nat → ResolveOutcome)
    (native : List NativeItem) (now : Nat) (cf0 : ControlFlow) (cause : StartCause)
    (s : IterState T) :
    ((single_iteration cb resolve native now cf0 cause s).trace).count .Resumed =
      if cause = .Init then 1 else 0 := by
  rw [single_iteration_trace, iteration_core_trace]
  have h1 : (native.filterMap natEv).count (Event.Resumed : Event T) = 0 :=
    count_natEv_zero _ _ fun t h => Event.noConfusion h
  have h2 : (s.st.activation_tokens.filterMap (tokenEvent resolve)).count
      (Event.Resumed : Event T) = 0 :=
    count_tokenEvent_zero _ _ _ fun a b c h => Event.noConfusion h
  have h3 : (s.st.user_events.map Event.UserEvent).count (Event.Resumed : Event T) = 0 :=
    count_userMap_zero _ _ fun u h => Event.noConfusion h
  have h4 : ((s.st.redraw_events
      ++ (s.redraw_channel ++ native.filterMap redrawOf)).dedup.map
      (Event.RedrawRequested : Nat → Event T)).count .Resumed = 0 :=
    count_redrawMap_zero _ _ fun u h => Event.noConfusion h
  by_cases hc : cause = .Init <;>
    simp [hc, List.count_append, List.count_cons, h1, h2, h3, h4]

theorem single_iteration_count_new_init {T : Type} [DecidableEq T]
    (cb : Event T → ControlFlow → ControlFlow) (resolve : Nat → Nat → ResolveOutcome)
    (native : List NativeItem) (now : Nat) (cf0 : ControlFlow) (cause : StartCause)
    (s : IterState T) :
    ((single_iteration cb resolve native now cf0 cause s).trace).count
        (.NewEvents .Init) = if cause = .Init then 1 else 0 := by
  rw [single_iteration_trace, iteration_core_trace]
  have h1 : (native.filterMap natEv).count (Event.NewEvents .Init : Event T) = 0 :=
    count_natEv_zero _ _ fun t h => Event.noConfusion h
  have h2 : (s.st.activation_tokens.filterMap (tokenEvent resolve)).count
      (Event.NewEvents .Init : Event T) = 0 :=
    count_tokenEvent_zero _ _ _ fun a b c h => Event.noConfusion h
  have h3 : (s.st.user_events.map Event.UserEvent).count
      (Event.NewEvents .Init : Event T) = 0 :=
    count_userMap_zero _ _ fun u h => Event.noConfusion h
  have h4 : ((s.st.redraw_events
      ++ (s.redraw_channel ++ native.filterMap redrawOf)).dedup.map
      (Event.RedrawRequested : Nat → Event T)).count (.NewEvents .Init) = 0 :=
    count_redrawMap_zero _ _ fun u h => Event.noConfusion h
  by_cases hc : cause = .Init <;>
    simp [hc, List.count_append, List.count_cons, h1, h2, h3, h4]

theorem filter_userMap {T : Type} (us : List T) :
    (us.map Event.UserEvent).filter isUserEv = us.map Event.UserEvent := by
  induction us with
  | nil => rfl
  | cons u us ih => simp [isUserEv, ih]

theorem filter_natEv_nil {T : Type} (native : List NativeItem) :
    (native.filterMap natEv : List (Event T)).filter isUserEv = [] := by
  rw [List.filter_eq_nil_iff]
  intro a ha
  obtain ⟨t, ht⟩ := mem_filterMap_natEv native a ha
  subst ht
  simp [isUserEv]

theorem filter_tokenEvent_nil {T : Type} (resolve : Nat → Nat → ResolveOutcome)
    (toks : List (Nat × Nat)) :
    (toks.filterMap (tokenEvent resolve) : List (Event T)).filter isUserEv = [] := by
  rw [List.filter_eq_nil_iff]
  intro a ha
  obtain ⟨x, y, z, ht⟩ := mem_filterMap_tokenEvent resolve toks a ha
  subst ht
  simp [isUserEv]

theorem filter_redrawMap_nil {T : Type} (ws : List Nat) :
    ((ws.map (Event.RedrawRequested : Nat → Event T)).filter isUserEv) = [] := by
  rw [List.filter_eq_nil_iff]
  intro a ha
  obtain ⟨u, _, hu⟩ := List.mem_map.mp ha
  subst hu
  simp [isUserEv]

theorem single_iteration_filter_user {T : Type}
    (cb : Event T → ControlFlow → ControlFlow) (resolve : Nat → Nat → ResolveOutcome)
    (native : List NativeItem) (now : Nat) (cf0 : ControlFlow) (cause : StartCause)
    (s : IterState T) :
    ((single_iteration cb resolve native now cf0 cause s).trace).filter isUserEv =
      s.st.user_events.map Event.UserEvent := by
  rw [single_iteration_trace, iteration_core_trace]
  by_cases hc : cause = .Init <;>
    simp [hc, List.filter_append, filter_userMap, filter_natEv_nil,
      filter_tokenEvent_nil, filter_redrawMap_nil, isUserEv]

/-! ### Invariants of the outer loop -/

theorem compute_wait_cause_ne_init (cf : ControlFlow) (start : Nat)
    (cause : StartCause) (h : cause ≠ .Init) :
    (compute_wait cf start cause).1 ≠ .Init := by
  cases cf with
  | ExitWithCode c => simpa [compute_wait] using h
  | Poll => simp [compute_wait]
  | Wait => simp [compute_wait]
  | WaitUntil d => simp [compute_wait]

theorem compute_wait_cause_ne_init_of_not_exit (cf : ControlFlow) (start : Nat)
    (cause : StartCause) (h : exit_code? cf = none) :
    (compute_wait cf start cause).1 ≠ .Init := by
  cases cf with
  | ExitWithCode c => simp [exit_code?] at h
  | Poll => simp [compute_wait]
  | Wait => simp [compute_wait]
  | WaitUntil d => simp [compute_wait]

theorem run_return_aux_exit {T : Type} (cb : Event T → ControlFlow → ControlFlow)
    (resolve : Nat → Nat → ResolveOutcome) (rounds : List (Round T))
    (cf : ControlFlow) (cause : StartCause) (ir : IterationResult) (s : IterState T)
    (tr : List (Event T)) (code : Int) (h : exit_code? cf = some code) :
    run_return_aux cb resolve rounds cf cause ir s tr
      = some ⟨code, tr ++ [.LoopDestroyed]⟩ := by
  cases rounds <;> simp [run_return_aux, h]

theorem next_cause_ne_init (ir : IterationResult) (now : Nat) (cause : StartCause)
    (h : cause ≠ .Init) : next_cause ir now cause ≠ .Init := by
  unfold next_cause
  cases ir.deadline with
  | none => exact h
  | some d =>
    by_cases hn : now < d
    · simp [hn]
    · simp [hn]; exact h

theorem single_iteration_cause_ne_init {T : Type}
    (cb : Event T → ControlFlow → ControlFlow) (resolve : Nat → Nat → ResolveOutcome)
    (native : List NativeItem) (now : Nat) (cf0 : ControlFlow) (cause : StartCause)
    (s : IterState T) (h : cause ≠ .Init) :
    (single_iteration cb resolve native now cf0 cause s).cause ≠ .Init := by
  rw [single_iteration_cause]
  exact compute_wait_cause_ne_init _ _ _ h

/-- Whatever the outer loop does, it only ever appends to the delivery trace:
iterations complete atomically, in order. -/
theorem run_return_aux_extends {T : Type} (cb : Event T → ControlFlow → ControlFlow)
    (resolve : Nat → Nat → ResolveOutcome) :
    ∀ (rounds : List (Round T)) (cf : ControlFlow) (cause : StartCause)
      (ir : IterationResult) (s : IterState T) (tr : List (Event T)) (res : RunResult T),
      run_return_aux cb resolve rounds cf cause ir s tr = some res →
      ∃ ext, res.trace = tr ++ ext := by
  intro rounds
  induction rounds with
  | nil =>
    intro cf cause ir s tr res h
    cases hcf : exit_code? cf <;> simp [run_return_aux, hcf] at h
    subst h
    exact ⟨[.LoopDestroyed], rfl⟩
  | cons r rest ih =>
    intro cf cause ir s tr res h
    cases hcf : exit_code? cf with
    | some code =>
      simp [run_return_aux, hcf] at h
      subst h
      exact ⟨[.LoopDestroyed], rfl⟩
    | none =>
      simp only [run_return_aux, hcf] at h
      by_cases hp : has_pending r.nativePending s.st = true
      · simp only [hp, if_true] at h
        obtain ⟨ext, hext⟩ := ih _ _ _ _ _ _ h
        exact ⟨_, by rw [hext, List.append_assoc]⟩
      · simp only [hp, if_false, Bool.false_eq_true] at h
        cases hd : r.dispatch with
        | err c =>
          rw [hd] at h
          simp at h
          subst h
          exact ⟨[.LoopDestroyed], rfl⟩
        | ok us rs ts =>
          rw [hd] at h
          by_cases hw : cf = .Wait
          · simp only [hw, if_true] at h
            exact ih _ _ _ _ _ _ h
          · simp only [hw, if_false] at h
            obtain ⟨ext, hext⟩ := ih _ _ _ _ _ _ h
            exact ⟨_, by rw [hext, List.append_assoc]⟩

/-- Counting invariant of the outer loop: if every iteration whose start
cause is not `Init` contributes zero occurrences of `e`, and `e` is not
`LoopDestroyed`, then the loop never adds an occurrence of `e` once the
cause is no longer `Init`. -/
theorem run_return_aux_count_inv {T : Type} [DecidableEq T]
    (cb : Event T → ControlFlow → ControlFlow) (resolve : Nat → Nat → ResolveOutcome)
    (e : Event T)
    (hzero : ∀ (native : List NativeItem) (now : Nat) (cf : ControlFlow)
      (c : StartCause) (s : IterState T), c ≠ .Init →
      ((single_iteration cb resolve native now cf c s).trace).count e = 0)
    (hld : e ≠ .LoopDestroyed) :
    ∀ (rounds : List (Round T)) (cf : ControlFlow) (cause : StartCause)
      (ir : IterationResult) (s : IterState T) (tr : List (Event T)) (res : RunResult T),
      cause ≠ .Init →
      run_return_aux cb resolve rounds cf cause ir s tr = some res →
      res.trace.count e = tr.count e := by
  intro rounds
  induction rounds with
  | nil =>
    intro cf cause ir s tr res hc h
    cases hcf : exit_code? cf <;> simp [run_return_aux, hcf] at h
    subst h
    simp [List.count_append, List.count_singleton', if_neg (Ne.symm hld)]
  | cons r rest ih =>
    intro cf cause ir s tr res hc h
    cases hcf : exit_code? cf with
    | some code =>
      simp [run_return_aux, hcf] at h
      subst h
      simp [List.count_append, List.count_singleton', if_neg (Ne.symm hld)]
    | none =>
      simp only [run_return_aux, hcf] at h
      have hc' : next_cause ir r.now_check cause ≠ .Init :=
        next_cause_ne_init _ _ _ hc
      by_cases hp : has_pending r.nativePending s.st = true
      · simp only [hp, if_true] at h
        rw [ih _ _ _ _ _ _ (single_iteration_cause_ne_init _ _ _ _ _ _ _ hc') h]
        simp [List.count_append, hzero _ _ _ _ _ hc']
      · simp only [hp, if_false, Bool.false_eq_true] at h
        cases hd : r.dispatch with
        | err c =>
          rw [hd] at h
          simp at h
          subst h
          simp [List.count_append, List.count_singleton', if_neg (Ne.symm hld)]
        | ok us rs ts =>
          rw [hd] at h
          by_cases hw : cf = .Wait
          · simp only [hw, if_true] at h
            exact ih _ _ _ _ _ _ hc h
          · simp only [hw, if_false] at h
            rw [ih _ _ _ _ _ _ (single_iteration_cause_ne_init _ _ _ _ _ _ _ hc') h]
            simp [List.count_append, hzero _ _ _ _ _ hc']

theorem single_iteration_cause_ne_init_of_not_exit {T : Type}
    (cb : Event T → ControlFlow → ControlFlow) (resolve : Nat → Nat → ResolveOutcome)
    (native : List NativeItem) (now : Nat) (cf0 : ControlFlow) (cause : StartCause)
    (s : IterState T)
    (h : exit_code? (single_iteration cb resolve native now cf0 cause s).cf = none) :
    (single_iteration cb resolve native now cf0 cause s).cause ≠ .Init := by
  rw [single_iteration_cause]
  rw [single_iteration_cf] at h
  exact compute_wait_cause_ne_init_of_not_exit _ _ _ h

/-! ### The claims -/

/-- C1: within one iteration the callback invocations occur in exactly the
fixed order — `NewEvents(cause)`, then (only for `Init`) `Resumed`, then the
drained native events, then the activation-token events, then the user
events, then `MainEventsCleared`, then the coalesced redraw events, then
`RedrawEventsCleared` — and across iterations the outer loop only appends
whole iteration traces, so iteration N completes before iteration N+1's
`NewEvents`. -/
theorem c1_iteration_delivery_order {T : Type}
    (cb : Event T → ControlFlow → ControlFlow) (resolve : Nat → Nat → ResolveOutcome)
    (native : List NativeItem) (now : Nat) (cf0 : ControlFlow) (cause : StartCause)
    (s : IterState T) :
    ((single_iteration cb resolve native now cf0 cause s).trace =
      [Event.NewEvents cause]
        ++ (if cause = .Init then [Event.Resumed] else [])
        ++ native.filterMap natEv
        ++ s.st.activation_tokens.filterMap (tokenEvent resolve)
        ++ s.st.user_events.map Event.UserEvent
        ++ [Event.MainEventsCleared]
        ++ ((s.st.redraw_events
              ++ (s.redraw_channel ++ native.filterMap redrawOf)).dedup.map
            Event.RedrawRequested)
        ++ [Event.RedrawEventsCleared])
    ∧ ∀ (rounds : List (Round T)) (cf : ControlFlow) (c : StartCause)
        (ir : IterationResult) (st : IterState T) (tr : List (Event T))
        (res : RunResult T),
        run_return_aux cb resolve rounds cf c ir st tr = some res →
        ∃ ext, res.trace = tr ++ ext := by
  constructor
  · rw [single_iteration_trace, iteration_core_trace]
    simp
  · exact run_return_aux_extends cb resolve

theorem c1_witness :
    ((single_iteration cbId resolveNone [NativeItem.other 9, NativeItem.redraw 7]
        10 .Poll .Init ⟨⟨[100, 101], [7, 3, 7], [(5, 1)]⟩, [3]⟩).trace =
      [Event.NewEvents .Init, Event.Resumed, Event.Native 9, Event.UserEvent 100,
        Event.UserEvent 101, Event.MainEventsCleared, Event.RedrawRequested 3,
        Event.RedrawRequested 7, Event.RedrawEventsCleared])
    ∧ ∃ ext, ([Event.LoopDestroyed] : List (Event Nat)) = [] ++ ext := by
  have h := c1_iteration_delivery_order cbId resolveNone
    [NativeItem.other 9, NativeItem.redraw 7] 10 .Poll .Init
    ⟨⟨[100, 101], [7, 3, 7], [(5, 1)]⟩, [3]⟩
  exact ⟨by rw [h.1]; rfl,
    h.2 [] (.ExitWithCode 0) .Init ⟨none, none, 0⟩ ⟨⟨[], [], []⟩, []⟩ []
      ⟨0, [.LoopDestroyed]⟩ rfl⟩

/-- C2: once the control flow is `ExitWithCode c`, the outer loop delivers no
further `NewEvents`, native, user, redraw or activation event in any
subsequent iteration — it appends exactly the one final `LoopDestroyed` and
returns `c` — and `ExitWithCode` is latched through the remainder of an
iteration (`sticky_exit_callback`). -/
theorem c2_exit_terminal {T : Type} (cb : Event T → ControlFlow → ControlFlow)
    (resolve : Nat → Nat → ResolveOutcome) (rounds : List (Round T)) (c : Int)
    (cause : StartCause) (ir : IterationResult) (s : IterState T)
    (tr : List (Event T)) (native : List NativeItem) (now : Nat) :
    run_return_aux cb resolve rounds (.ExitWithCode c) cause ir s tr
        = some ⟨c, tr ++ [.LoopDestroyed]⟩
    ∧ (single_iteration cb resolve native now (.ExitWithCode c) cause s).cf
        = .ExitWithCode c := by
  constructor
  · cases rounds <;> rfl
  · rw [single_iteration_cf]
    exact iteration_core_exit cb resolve native cause s c

/-- C3: within one iteration, exactly one `RedrawRequested(w)` is delivered
for a window id `w` that is pending — in the buffered redraw queue, in the
redraw channel, or redirected there from the native drain — and none for a
window id that is not pending; duplicates are coalesced (set semantics). -/
theorem c3_redraw_coalescing {T : Type} [DecidableEq T]
    (cb : Event T → ControlFlow → ControlFlow) (resolve : Nat → Nat → ResolveOutcome)
    (native : List NativeItem) (now : Nat) (cf0 : ControlFlow) (cause : StartCause)
    (s : IterState T) (w : Nat) :
    ((single_iteration cb resolve native now cf0 cause s).trace).count
        (.RedrawRequested w) =
      if w ∈ s.st.redraw_events ++ (s.redraw_channel ++ native.filterMap redrawOf)
      then 1 else 0 :=
  single_iteration_count_redraw cb resolve native now cf0 cause s w

/-- C4: the user events of one iteration are delivered in exactly the order
they sit in the queue (the channel dispatch preserves send order), once
each, and the queue is fully drained. -/
theorem c4_user_event_order {T : Type} (cb : Event T → ControlFlow → ControlFlow)
    (resolve : Nat → Nat → ResolveOutcome) (native : List NativeItem) (now : Nat)
    (cf0 : ControlFlow) (cause : StartCause) (s : IterState T) :
    ((single_iteration cb resolve native now cf0 cause s).trace).filter isUserEv
        = s.st.user_events.map Event.UserEvent
    ∧ (single_iteration cb resolve native now cf0 cause s).state.st.user_events
        = [] :=
  ⟨single_iteration_filter_user cb resolve native now cf0 cause s, rfl⟩

/-- C5: under `WaitUntil(d)` the computed wait timeout is `d - now` when the
deadline is in the future, zero when `d ≤ now`, and never "block forever". -/
theorem c5_wait_until_timeout (d now : Nat) (c : StartCause) :
    (now < d → (compute_wait (.WaitUntil d) now c).2.timeout = some (d - now))
    ∧ (d ≤ now → (compute_wait (.WaitUntil d) now c).2.timeout = some 0)
    ∧ (compute_wait (.WaitUntil d) now c).2.timeout ≠ none := by
  refine ⟨fun h => ?_, fun h => ?_, ?_⟩
  · simp [compute_wait, if_pos h]
  · simp [compute_wait, if_neg (Nat.not_lt.mpr h)]
  · simp [compute_wait]

theorem c5_witness :
    (compute_wait (.WaitUntil 10) 3 .Poll).2.timeout = some 7
    ∧ (compute_wait (.WaitUntil 3) 10 .Poll).2.timeout = some 0 :=
  ⟨(c5_wait_until_timeout 10 3 .Poll).1 (by decide),
    (c5_wait_until_timeout 3 10 .Poll).2.1 (by decide)⟩

/-- C6 counterexample: the claim says waking exactly *at* the requested
deadline yields `WaitCancelled`, but the code tests `Instant::now() <
deadline` strictly, so waking at `now = d = 5` (deadline requested at
`start = 3`) keeps the `ResumeTimeReached` cause. -/
theorem c6_counterexample :
    next_cause (compute_wait (.WaitUntil 5) 3 .Poll).2 5
        (compute_wait (.WaitUntil 5) 3 .Poll).1 = .ResumeTimeReached 3 5
    ∧ StartCause.ResumeTimeReached 3 5 ≠ .WaitCancelled 3 (some 5) := by
  exact ⟨rfl, by decide⟩

/-- C6 (amended): after an iteration that ended in `WaitUntil d` at time
`start`, the next iteration's start cause is
`WaitCancelled{start, Some d}` when the loop woke strictly before `d`, and
`ResumeTimeReached{start, d}` when it woke at or after `d`. -/
theorem c6_wake_cause (d start now : Nat) (c0 : StartCause) :
    next_cause (compute_wait (.WaitUntil d) start c0).2 now
        (compute_wait (.WaitUntil d) start c0).1 =
      if now < d then .WaitCancelled start (some d)
      else .ResumeTimeReached start d := by
  by_cases h : now < d <;> simp [compute_wait, next_cause, h]

/-- C7: the between-iteration readiness check is true exactly when a native
event, a user event or a redraw event is already buffered; the
activation-token queue never influences it. -/
theorem c7_has_pending {T : Type} (np : Bool) (us : List T) (rs : List Nat)
    (ts ts' : List (Nat × Nat)) :
    (has_pending np ⟨us, rs, ts⟩ = true ↔ (np = true ∨ us ≠ [] ∨ rs ≠ []))
    ∧ has_pending np ⟨us, rs, ts⟩ = has_pending np ⟨us, rs, ts'⟩
    ∧ has_pending false (⟨[], [], ts⟩ : EventLoopState T) = false := by
  refine ⟨?_, rfl, rfl⟩
  simp [has_pending, or_assoc]

theorem c7_witness :
    has_pending false ⟨([] : List Nat), [], [(1, 2)]⟩ = false
    ∧ has_pending true ⟨([] : List Nat), [], []⟩ = true :=
  ⟨(c7_has_pending false [] [] [(1, 2)] []).2.2,
    (c7_has_pending true ([] : List Nat) [] [] []).1.mpr (Or.inl rfl)⟩

/-- C8: only physical devices (slave keyboard, slave pointer, floating
slave) ever carry scroll axes — a logical/master device's record always has
an empty `scroll_axes` list — and scroll positions are only reset on
physical devices. -/
theorem c8_scroll_axes_physical (info : XIDeviceInfo) :
    ((Device.new info).scroll_axes ≠ [] → physical_device info = true)
    ∧ (physical_device info = false → (Device.new info).scroll_axes = [])
    ∧ ∀ d : Device, physical_device info = false →
        Device.reset_scroll_position d info = d := by
  cases hp : physical_device info
  · have hax : (Device.new info).scroll_axes = [] := by
      simp [Device.new, Device.reset_scroll_position, hp]
    exact ⟨fun hne => absurd hax hne, fun _ => hax,
      fun d _ => by simp [Device.reset_scroll_position, hp]⟩
  · refine ⟨fun _ => rfl, fun h => ?_, fun d h => ?_⟩ <;> cases h

theorem c8_witness :
    (Device.new ⟨"virtual core pointer", 1, 2,
        [XIClass.scroll 2 .Vertical 1]⟩).scroll_axes = []
    ∧ Device.reset_scroll_position ⟨"d", [], 0⟩
        ⟨"virtual core pointer", 1, 2, [XIClass.valuator 2 9]⟩ = ⟨"d", [], 0⟩ :=
  ⟨(c8_scroll_axes_physical _).2.1 (by decide),
    (c8_scroll_axes_physical _).2.2 _ (by decide)⟩

/-- C9: a completed run delivers `Resumed` exactly once, delivers
`NewEvents(Init)` exactly once, and its trace starts with
`NewEvents(Init), Resumed` — so only the first iteration has cause `Init`
and only it emits `Resumed`, immediately after its `NewEvents`. -/
theorem c9_resumed_once {T : Type} [DecidableEq T]
    (cb : Event T → ControlFlow → ControlFlow) (resolve : Nat → Nat → ResolveOutcome)
    (rounds : List (Round T)) (native0 : List NativeItem) (now0 : Nat)
    (res : RunResult T)
    (h : run_return cb resolve rounds native0 now0 = some res) :
    res.trace.count .Resumed = 1
    ∧ res.trace.count (.NewEvents .Init) = 1
    ∧ res.trace.take 2 = [.NewEvents .Init, .Resumed] := by
  unfold run_return at h
  set out := single_iteration cb resolve native0 now0 .Poll .Init ⟨⟨[], [], []⟩, []⟩
    with hout
  have hshape : out.trace = Event.NewEvents .Init :: Event.Resumed ::
      (List.filterMap natEv native0 ++ Event.MainEventsCleared ::
        (List.map Event.RedrawRequested (List.filterMap redrawOf native0).dedup
          ++ [Event.RedrawEventsCleared])) := by
    rw [hout, single_iteration_trace, iteration_core_trace]
    simp
  have hres1 : out.trace.count (Event.Resumed : Event T) = 1 := by
    rw [hout, single_iteration_count_resumed]
    simp
  have hres2 : out.trace.count (Event.NewEvents .Init : Event T) = 1 := by
    rw [hout, single_iteration_count_new_init]
    simp
  cases hcf : exit_code? out.cf with
  | some code =>
    rw [run_return_aux_exit cb resolve rounds out.cf out.cause out.res out.state
      out.trace code hcf] at h
    cases h
    refine ⟨?_, ?_, ?_⟩
    · simp [List.count_append, hres1, List.count_singleton']
    · simp [List.count_append, hres2, List.count_singleton']
    · rw [hshape]
      simp
  | none =>
    have hcne : out.cause ≠ .Init :=
      single_iteration_cause_ne_init_of_not_exit cb resolve native0 now0 .Poll
        .Init ⟨⟨[], [], []⟩, []⟩ hcf
    have hz1 : ∀ (native : List NativeItem) (now : Nat) (cf : ControlFlow)
        (c : StartCause) (s : IterState T), c ≠ .Init →
        ((single_iteration cb resolve native now cf c s).trace).count
          (Event.Resumed : Event T) = 0 := by
      intro native now cf c s hc
      rw [single_iteration_count_resumed]
      exact if_neg hc
    have hz2 : ∀ (native : List NativeItem) (now : Nat) (cf : ControlFlow)
        (c : StartCause) (s : IterState T), c ≠ .Init →
        ((single_iteration cb resolve native now cf c s).trace).count
          (Event.NewEvents .Init : Event T) = 0 := by
      intro native now cf c s hc
      rw [single_iteration_count_new_init]
      exact if_neg hc
    have h1 := run_return_aux_count_inv cb resolve .Resumed hz1
      (fun hh => Event.noConfusion hh) rounds out.cf out.cause out.res out.state
      out.trace res hcne h
    have h2 := run_return_aux_count_inv cb resolve (.NewEvents .Init) hz2
      (fun hh => Event.noConfusion hh) rounds out.cf out.cause out.res out.state
      out.trace res hcne h
    obtain ⟨ext, hext⟩ := run_return_aux_extends cb resolve rounds out.cf out.cause
      out.res out.state out.trace res h
    refine ⟨?_, ?_, ?_⟩
    · rw [h1]
      exact hres1
    · rw [h2]
      exact hres2
    · rw [hext, hshape]
      simp

theorem c9_witness :
    (RunResult.trace ⟨0, [Event.NewEvents .Init, Event.Resumed,
        Event.MainEventsCleared, Event.RedrawEventsCleared,
        Event.LoopDestroyed]⟩).count (Event.Resumed : Event Nat) = 1
    ∧ (RunResult.trace (⟨0, [Event.NewEvents .Init, Event.Resumed,
        Event.MainEventsCleared, Event.RedrawEventsCleared,
        Event.LoopDestroyed]⟩ : RunResult Nat)).count (.NewEvents .Init) = 1
    ∧ (RunResult.trace (⟨0, [Event.NewEvents .Init, Event.Resumed,
        Event.MainEventsCleared, Event.RedrawEventsCleared,
        Event.LoopDestroyed]⟩ : RunResult Nat)).take 2
      = [.NewEvents .Init, .Resumed] :=
  c9_resumed_once cbExit resolveNone [] [] 0
    ⟨0, [Event.NewEvents .Init, Event.Resumed, Event.MainEventsCleared,
      Event.RedrawEventsCleared, Event.LoopDestroyed]⟩ rfl

/-- C10: if the loop is not exiting and nothing is pending, a dispatch
returning an I/O error stops the iteration immediately: the loop delivers
exactly the one final `LoopDestroyed` and returns the error's raw OS code,
or 1 when the error carries none. -/
theorem c10_dispatch_error {T : Type} (cb : Event T → ControlFlow → ControlFlow)
    (resolve : Nat → Nat → ResolveOutcome) (r : Round T) (rest : List (Round T))
    (cf : ControlFlow) (cause : StartCause) (ir : IterationResult) (s : IterState T)
    (tr : List (Event T)) (c : Option Int)
    (hcf : exit_code? cf = none)
    (hp : has_pending r.nativePending s.st = false)
    (hd : r.dispatch = .err c) :
    run_return_aux cb resolve (r :: rest) cf cause ir s tr
      = some ⟨c.getD 1, tr ++ [.LoopDestroyed]⟩ := by
  simp only [run_return_aux, hcf]
  simp [hp, hd]

theorem c10_witness :
    run_return_aux (cbId : Event Nat → ControlFlow → ControlFlow) resolveNone
        [⟨false, DispatchOutcome.err none, 0, [], 0⟩] .Poll .Poll ⟨none, none, 0⟩
        ⟨⟨[], [], []⟩, []⟩ [] = some ⟨1, [Event.LoopDestroyed]⟩ := by
  have h := c10_dispatch_error (cbId : Event Nat → ControlFlow → ControlFlow)
    resolveNone ⟨false, DispatchOutcome.err none, 0, [], 0⟩ [] .Poll .Poll
    ⟨none, none, 0⟩ ⟨⟨[], [], []⟩, []⟩ [] none rfl rfl rfl
  simpa using h

end Winit
